import Mathlib

/-!
Verification of the glwall multi-pass shader pipeline (src/slang_process.c and
the pipeline half of the same file).

The C code is shallowly embedded: C strings become `List Char` with explicit
numeric indices (a pointer `p` into a string `s` is the index of the char it
points at), machine integers become `Int`/`Nat`, C `float` arithmetic on the
small exactly-representable scale factors used by the claims becomes exact
`Rat` arithmetic, and the GL / libc / file-system collaborators become
explicit function-valued environments.  Every definition is executable, so
the theorems below can be settled on concrete inputs by `decide` / `rfl`.
-/

namespace GlWall

/-- NUL character used to model reads of the terminating byte of a C string. -/
def nulChar : Char := Char.ofNat 0

/-- Opening brace character (ASCII 123). -/
def lbrace : Char := Char.ofNat 123

/-- Closing brace character (ASCII 125). -/
def rbrace : Char := Char.ofNat 125

/-- `s[i]` for a C string: the terminating NUL once `i` is past the end. -/
def charAt (s : List Char) (i : Nat) : Char := s.getD i nulChar

/-- C `isspace` in the default locale (ASCII). -/
def isSpaceC (c : Char) : Bool :=
  c = ' ' || c = '\t' || c = '\n' || c = '\x0b' || c = '\x0c' || c = '\r'

/-- C `isalnum` in the default locale (ASCII letters and digits). -/
def isAlnumC (c : Char) : Bool := c.isAlphanum

/-- Identifier characters: `isalnum(c) || c == '_'`, as used throughout the scanner. -/
def isWordC (c : Char) : Bool := c.isAlphanum || c = '_'

/-- C `isdigit`. -/
def isDigitC (c : Char) : Bool := c.isDigit

/-- ASCII lower-casing of one char (for `strcasecmp`). -/
def toLowerC (c : Char) : Char := if c.isUpper then c.toLower else c

/-- `strcasecmp(a, b) == 0`: ASCII case-insensitive string equality. -/
def caseEq (a b : List Char) : Bool := a.map toLowerC = b.map toLowerC

/-- The substring `s[a..b)` (pointer pair / pointer+length extraction). -/
def slice (s : List Char) (a b : Nat) : List Char := (s.drop a).take (b - a)

/-- Auxiliary scan for `strstr`: first index `≥ i` where `pat` is a prefix
of the rest of the scanned suffix.  `none` when there is no occurrence. -/
def findSubAux (pat : List Char) : List Char → Nat → Option Nat
  | [], _ => none
  | c :: rest, i =>
    if pat.isPrefixOf (c :: rest) then some i else findSubAux pat rest (i + 1)

/-- `strstr(s + start, pat)` for a non-empty `pat`, returning an absolute index. -/
def strstrIdx (s pat : List Char) (start : Nat) : Option Nat :=
  findSubAux pat (s.drop start) start

/-- `strchr(s + start, c)`, returning an absolute index. -/
def strchrIdx (s : List Char) (c : Char) (start : Nat) : Option Nat :=
  strstrIdx s [c] start

/-- `strncmp(s + i, pat, strlen(pat)) == 0`. -/
def matchAt (s pat : List Char) (i : Nat) : Bool := pat.isPrefixOf (s.drop i)

/-- `s` contains `pat` as a substring (used to state hypotheses about inputs). -/
def containsSub (s pat : List Char) : Bool := (strstrIdx s pat 0).isSome

/-- Auxiliary scan for `skip_whitespace`. -/
def skipWsAux : List Char → Nat → Nat
  | [], i => i
  | c :: rest, i => if isSpaceC c then skipWsAux rest (i + 1) else i

/-- `skip_whitespace(&p)` starting from index `i` (stops at NUL / end). -/
def skipWsIdx (s : List Char) (i : Nat) : Nat := skipWsAux (s.drop i) i

/-- Scan over identifier characters, for `get_word`. -/
def takeWordAux : List Char → Nat → Nat
  | [], i => i
  | c :: rest, i => if isWordC c then takeWordAux rest (i + 1) else i

/-- `get_word(&p)`: skip whitespace, then consume `[A-Za-z0-9_]*`.  Returns
the word (or `none` when empty, as the C returns NULL) and the new `p`. -/
def getWordAt (s : List Char) (i : Nat) : Option (List Char) × Nat :=
  let j := skipWsIdx s i
  let k := takeWordAux (s.drop j) j
  if k = j then (none, j) else (some (slice s j k), k)

/-- Auxiliary scan for `find_matching_brace` (depth counting, stops at NUL). -/
def findBraceAux : List Char → Nat → Int → Option Nat
  | [], _, _ => none
  | c :: rest, i, depth =>
    let d : Int := if c = lbrace then depth + 1 else if c = rbrace then depth - 1 else depth
    if c = rbrace && d = 0 then some i else findBraceAux rest (i + 1) d

/-- `find_matching_brace(start)`: index of the brace closing the one at `i`. -/
def findBraceIdx (s : List Char) (i : Nat) : Option Nat := findBraceAux (s.drop i) i 0

/-- Backward scan `while (n > p && pred(s[n])) n--;` starting at `n`. -/
def backWhile (pred : Char → Bool) (s : List Char) (p : Nat) : Nat → Nat
  | 0 => 0
  | n + 1 => if p < n + 1 && pred (charAt s (n + 1)) then backWhile pred s p n else n + 1

/-- Last index of `c` in `l` (`strrchr` on an extracted statement). -/
def lastIdxOfChar (l : List Char) (c : Char) : Option Nat :=
  (List.range l.length).foldl (fun acc i => if charAt l i = c then some i else acc) none

/-! ## Dialect translator (`slang_process_to_gl330`) -/

/-- The fixed builtin allow-list (`builtins[]` in slang_process.c). -/
def builtinNames : List (List Char) :=
  ["Source".data, "Original".data, "SourceSize".data, "OriginalSize".data,
   "OutputSize".data, "FinalViewportSize".data, "FrameCount".data,
   "FrameTime".data, "FrameDirection".data]

/-- `is_builtin(name)`. -/
def isBuiltinC (name : List Char) : Bool := builtinNames.contains name

/-- One text edit: `struct replacement` (start offset, replaced length, new text). -/
structure Edit where
  start : Nat
  len : Nat
  text : List Char
  deriving Repr, DecidableEq

/-- `extract_fragment_shader`: shared region before the first stage pragma,
followed by the fragment-tagged region; identity when no fragment pragma. -/
def extractFragmentShader (src : List Char) : List Char :=
  match strstrIdx src "#pragma stage fragment".data 0 with
  | none => src
  | some fp =>
    let sharedLen := (strstrIdx src "#pragma stage".data 0).getD 0
    let fragStart := fp + "#pragma stage fragment".length
    let fragEnd := (strstrIdx src "#pragma stage".data fragStart).getD src.length
    slice src 0 sharedLen ++ slice src fragStart fragEnd

/-- Split a uniform-block body into `;`-terminated statements, exactly as the
body loop of the block case does (leading whitespace skipped, statement text
up to but excluding the `;`; stops when no further `;` lies in the body). -/
def splitStmts (body : List Char) : Nat → Nat → List (List Char)
  | 0, _ => []
  | fuel + 1, i =>
    let j := skipWsIdx body i
    if j ≥ body.length then []
    else
      match strchrIdx body ';' j with
      | none => []
      | some k => slice body j k :: splitStmts body fuel (k + 1)

/-- Member name of one block statement: everything after the last space
(`strrchr(stmt, ' ')`), or the whole statement when it has no space. -/
def memberName (stmt : List Char) : List Char :=
  match lastIdxOfChar stmt ' ' with
  | none => stmt
  | some k => stmt.drop (k + 1)

/-- The member name with any `[...]` suffix cut off (`clean_name`). -/
def cleanName (name : List Char) : List Char := name.takeWhile (fun c => c ≠ '[')

/-- Re-emitted declaration for one block statement: dropped when the clean
member name is a builtin, otherwise `uniform <stmt>;\n`. -/
def emitOneDecl (stmt : List Char) : List Char :=
  if isBuiltinC (cleanName (memberName stmt)) then []
  else "uniform ".data ++ stmt ++ ";\n".data

/-- `new_decls` accumulated over the whole block body. -/
def emitBlockDecls (body : List Char) : List Char :=
  ((splitStmts body (body.length + 1) 0).map emitOneDecl).flatten

/-- Collect the deletions of `<instance>.` over the whole source: every
occurrence is deleted unless the preceding character is an identifier
character (word-boundary check); scanning advances by one on a rejected
occurrence and past the pattern on an accepted one. -/
def collectInstDel (s pat : List Char) : Nat → Nat → List Edit
  | 0, _ => []
  | fuel + 1, start =>
    match strstrIdx s pat start with
    | none => []
    | some q =>
      if q > 0 && isWordC (charAt s (q - 1)) then
        collectInstDel s pat fuel (q + 1)
      else
        ⟨q, pat.length, []⟩ :: collectInstDel s pat fuel (q + pat.length)

/-- The declared name of a scalar-uniform / `in` / `out` statement: from
the character before the `;` at `se`, scan backwards over whitespace, then
backwards over identifier characters, exactly as the paired backward loops
of those branches do (`p` is the branch's pointer, bounding both scans). -/
def declName (s : List Char) (p se : Nat) : List Char :=
  slice s (backWhile isWordC s p (backWhile isSpaceC s p (se - 1)) + 1)
    (backWhile isSpaceC s p (se - 1) + 1)

/-- The main scanning loop of `slang_process_to_gl330`, producing the edit
list.  `p0` is the scan pointer; the fuel bounds the number of iterations
(each iteration moves the pointer strictly forward, by at least one).
`break` in the C loop is returning the edits collected so far; a `continue`
is a recursive call with the current pointer. -/
def scanEdits (s : List Char) : Nat → Nat → List Edit
  | 0, _ => []
  | fuel + 1, p0 =>
    match strstrIdx s "layout".data p0 with
    | none => []
    | some ls =>
      let p1 := skipWsIdx s (ls + 6)
      if charAt s p1 ≠ '(' then scanEdits s fuel p1
      else
        match strchrIdx s ')' p1 with
        | none => []
        | some pe =>
          let p2 := skipWsIdx s (pe + 1)
          if matchAt s "uniform".data p2 then
            -- uniform_kw = p2
            let p3 := skipWsIdx s (p2 + 7)
            let isBlock := charAt s p3 = lbrace ||
              (isAlnumC (charAt s p3) &&
                match strchrIdx s lbrace p3, strchrIdx s ';' p3 with
                | some b, some sc => b < sc
                | _, _ => false)
            if isBlock then
              let bnp := if charAt s p3 ≠ lbrace then getWordAt s p3 else (none, p3)
              let p5 := skipWsIdx s bnp.2
              if charAt s p5 ≠ lbrace then scanEdits s fuel p5
              else
                match findBraceIdx s p5 with
                | none => []
                | some be =>
                  let p6 := skipWsIdx s (be + 1)
                  let inp := if charAt s p6 ≠ ';' then getWordAt s p6 else (none, p6)
                  let decls := emitBlockDecls (slice s (p5 + 1) be)
                  let blockLen := if charAt s inp.2 = ';' then inp.2 + 1 - ls else inp.2 - ls
                  let p8 := if charAt s inp.2 = ';' then inp.2 + 1 else inp.2
                  let instEdits :=
                    match inp.1 with
                    | some w => collectInstDel s (w ++ ['.']) (s.length + 1) 0
                    | none => []
                  ⟨ls, blockLen, decls⟩ :: instEdits ++ scanEdits s fuel p8
            else
              match strchrIdx s ';' p3 with
              | none => []
              | some se =>
                let n0 := backWhile isSpaceC s p3 (se - 1)
                let n1 := backWhile isWordC s p3 n0
                let name := slice s (n1 + 1) (n0 + 1)
                if isBuiltinC name then
                  ⟨ls, se - ls + 1, []⟩ :: scanEdits s fuel (se + 1)
                else
                  ⟨ls, p2 + 7 - ls, "uniform".data⟩ :: scanEdits s fuel (se + 1)
          else if matchAt s "in".data p2 && isSpaceC (charAt s (p2 + 2)) then
            match strchrIdx s ';' p2 with
            | none => scanEdits s fuel p2
            | some se =>
              let n0 := backWhile isSpaceC s p2 (se - 1)
              let n1 := backWhile isWordC s p2 n0
              let name := slice s (n1 + 1) (n0 + 1)
              if name = "vTexCoord".data then
                ⟨ls, se - ls + 1, []⟩ :: scanEdits s fuel p2
              else
                ⟨ls, p2 - ls, []⟩ :: scanEdits s fuel p2
          else if matchAt s "out".data p2 && isSpaceC (charAt s (p2 + 3)) then
            match strchrIdx s ';' p2 with
            | none => scanEdits s fuel p2
            | some se =>
              let n0 := backWhile isSpaceC s p2 (se - 1)
              let n1 := backWhile isWordC s p2 n0
              let name := slice s (n1 + 1) (n0 + 1)
              if name = "FragColor".data then
                ⟨ls, se - ls + 1, []⟩ :: scanEdits s fuel p2
              else
                ⟨ls, p2 - ls, []⟩ :: scanEdits s fuel p2
          else scanEdits s fuel p2

/-- Insert one edit into a start-sorted list (modelling the `qsort` by
ascending start offset; ties never arise on the inputs considered). -/
def insertEdit (e : Edit) : List Edit → List Edit
  | [] => [e]
  | x :: xs => if e.start ≤ x.start then e :: x :: xs else x :: insertEdit e xs

/-- Sort edits ascending by start offset (`compare_replacements_asc`). -/
def sortEdits : List Edit → List Edit
  | [] => []
  | x :: xs => insertEdit x (sortEdits xs)

/-- The rebuild loop of `apply_replacements_asc`: copy the gap before each
edit (only when its start is ahead of the current position), emit its text,
and move the position to the end of the replaced range; finally copy the
remainder of the source from the current position. -/
def applyEditsAux (s : List Char) : List Edit → Nat → List Char
  | [], cp => s.drop cp
  | e :: rest, cp =>
    (if e.start > cp then slice s cp e.start else []) ++ e.text ++
      applyEditsAux s rest (e.start + e.len)

/-- `apply_replacements_asc(src, list)`. -/
def applyEdits (s : List Char) (edits : List Edit) : List Char :=
  applyEditsAux s (sortEdits edits) 0

/-- The full edit list computed by one run of the translator on (the
fragment extraction of) `s`. -/
def translatorEdits (s : List Char) : List Edit := scanEdits s (s.length + 1) 0

/-- `slang_process_to_gl330`: extract the fragment region, scan it for
edits, and apply them in one ascending rebuild. -/
def slangProcessToGl330 (raw : List Char) : List Char :=
  let s := extractFragmentShader raw
  applyEdits s (translatorEdits s)

/-! ## Preset parsing (`preset_parse_kv` and the value parsers) -/

/-- `trim_inplace`: strip leading and trailing `isspace` characters. -/
def trimChars (l : List Char) : List Char :=
  ((l.dropWhile isSpaceC).reverse.dropWhile isSpaceC).reverse

/-- `strip_comment_inplace`: truncate the line at the first `#` or `;`
outside double quotes (the quote flag toggles on every `"`). -/
def stripComment : List Char → Bool → List Char
  | [], _ => []
  | c :: rest, inq =>
    let inq2 := if c = '"' then !inq else inq
    if !inq2 && (c = '#' || c = ';') then []
    else c :: stripComment rest inq2

/-- `unquote_inplace`: strip one pair of surrounding double quotes. -/
def unquoteChars (l : List Char) : List Char :=
  if l.length ≥ 2 && charAt l 0 = '"' && charAt l (l.length - 1) = '"' then
    slice l 1 (l.length - 1)
  else l

/-- Split on a separator character (`strtok`-style callers skip the empty
pieces themselves). -/
def splitOnChar (c : Char) : List Char → List (List Char)
  | [] => [[]]
  | x :: rest =>
    match splitOnChar c rest with
    | [] => [[x]]
    | h :: t => if x = c then [] :: h :: t else (x :: h) :: t

/-- The body of the per-line parse, on the comment-stripped and trimmed
line: require a `=` and a non-empty trimmed key before it; the value after
it is trimmed and unquoted. -/
def parseTrimmedLine (t : List Char) : Option (List Char × List Char) :=
  if t = [] then none
  else
    match strchrIdx t '=' 0 with
    | none => none
    | some e =>
      if trimChars (t.take e) = [] then none
      else some (trimChars (t.take e), unquoteChars (trimChars (t.drop (e + 1))))

/-- One line of a preset file: strip comments, trim, require a non-empty
key before the first `=`; lines without `=` (or with an empty key) yield
nothing. -/
def lineToKv (line : List Char) : Option (List Char × List Char) :=
  parseTrimmedLine (trimChars (stripComment line false))

/-- `preset_parse_kv` applied to the text of the preset file. -/
def parseKvText (text : List Char) : List (List Char × List Char) :=
  (splitOnChar '\n' text).filterMap lineToKv

/-- `kv_get`: value of the first pair with the given key. -/
def kvGet (kvs : List (List Char × List Char)) (key : List Char) : Option (List Char) :=
  (kvs.find? (fun kv => kv.1 = key)).map Prod.snd

/-- `parse_bool`: `1`/`true`/`yes` and `0`/`false`/`no` (case-insensitive),
anything else falls back to the default. -/
def parseBoolC (v : Option (List Char)) (dflt : Bool) : Bool :=
  match v with
  | none => dflt
  | some s =>
    if s = "1".data || caseEq s "true".data || caseEq s "yes".data then true
    else if s = "0".data || caseEq s "false".data || caseEq s "no".data then false
    else dflt

/-- Digits-to-number accumulator for the numeric collaborator models. -/
def digitsVal : List Char → Nat → Nat
  | [], acc => acc
  | c :: rest, acc => digitsVal rest (acc * 10 + (c.toNat - '0'.toNat))

/-- Model of libc `strtol(v, &end, 10)` restricted to what `parse_int`
observes: leading `isspace`, an optional sign, then a non-empty digit run
(a prefix; trailing garbage is ignored).  `none` models `end == v`. -/
def strtolModel (s : List Char) : Option Int :=
  let t := s.dropWhile isSpaceC
  let sign : Int := if charAt t 0 = '-' then -1 else 1
  let t2 := if charAt t 0 = '-' || charAt t 0 = '+' then t.drop 1 else t
  let digits := t2.takeWhile isDigitC
  if digits = [] then none else some (sign * digitsVal digits 0)

/-- `parse_int`: `strtol` with fallback to the default when nothing was
converted or the value leaves `int` range. -/
def parseIntC (v : Option (List Char)) (dflt : Int) : Int :=
  match v with
  | none => dflt
  | some s =>
    match strtolModel s with
    | none => dflt
    | some n => if n < -(2 ^ 31) || n > 2 ^ 31 - 1 then dflt else n

/-- Model of libc `strtof` restricted to plain decimal forms
`[ws][sign]digits[.digits][(e|E)[sign]digits]` over exact rationals; `none`
models `end == v` (no conversion).  The scale factors exercised by the
claims are exactly representable, so exact arithmetic is faithful there. -/
def strtofModel (s : List Char) : Option Rat :=
  let t := s.dropWhile isSpaceC
  let sign : Rat := if charAt t 0 = '-' then -1 else 1
  let t2 := if charAt t 0 = '-' || charAt t 0 = '+' then t.drop 1 else t
  let intDigits := t2.takeWhile isDigitC
  let t3 := t2.drop intDigits.length
  let fracDigits := if charAt t3 0 = '.' then (t3.drop 1).takeWhile isDigitC else []
  if intDigits = [] && fracDigits = [] then none
  else
    let t4 := if charAt t3 0 = '.' then t3.drop (1 + fracDigits.length) else t3
    let mantissa : Rat :=
      (digitsVal intDigits 0 : Rat) + (digitsVal fracDigits 0 : Rat) / (10 ^ fracDigits.length)
    let expPart : Rat :=
      if charAt t4 0 = 'e' || charAt t4 0 = 'E' then
        let u := t4.drop 1
        let esign : Int := if charAt u 0 = '-' then -1 else 1
        let u2 := if charAt u 0 = '-' || charAt u 0 = '+' then u.drop 1 else u
        let eds := u2.takeWhile isDigitC
        if eds = [] then 1 else (10 : Rat) ^ (esign * (digitsVal eds 0 : Int))
      else 1
    some (sign * mantissa * expPart)

/-- `parse_float`: `strtof` with fallback to the default. -/
def parseFloatC (v : Option (List Char)) (dflt : Rat) : Rat :=
  match v with
  | none => dflt
  | some s =>
    match strtofModel s with
    | none => dflt
    | some f => f

/-- `path_dirname`. -/
def pathDirname (path : List Char) : List Char :=
  match lastIdxOfChar path '/' with
  | none => ".".data
  | some k => if k = 0 then "/".data else path.take k

/-- `path_join`. -/
def pathJoin (dir rel : List Char) : List Char :=
  if charAt rel 0 = '/' then rel
  else if dir ≠ [] && charAt dir (dir.length - 1) ≠ '/' then dir ++ "/".data ++ rel
  else dir ++ rel

/-- `ends_with`. -/
def endsWithC (s suffix : List Char) : Bool :=
  suffix.length ≤ s.length && s.drop (s.length - suffix.length) = suffix

/-! ## Pipeline construction (`pipeline_init_from_preset`) -/

/-- The external collaborators: whole-file reads, shader compilation and
linking (`create_program` succeeding or not on a fragment source), and PNG
decoding (dimensions of the decoded image). -/
structure Env where
  readFile : List Char → Option (List Char)
  compileOk : List Char → Bool
  decodePng : List Char → Option (Int × Int)

/-- `strip_version_directive`: delete the first line whose content (after
leading spaces/tabs) starts with `#version`.  The fuel walks line starts. -/
def stripVersionAux (s : List Char) : Nat → Nat → List Char
  | 0, _ => s
  | fuel + 1, lineStart =>
    let content := skipWsBlanks s lineStart
    if matchAt s "#version".data content then
      let vEnd :=
        match strchrIdx s '\n' content with
        | some nl => nl + 1
        | none => s.length
      s.take lineStart ++ s.drop vEnd
    else
      match strchrIdx s '\n' lineStart with
      | some nl => stripVersionAux s fuel (nl + 1)
      | none => s
where
  /-- skip `' '` and `'\t'` only, as the C loop does. -/
  skipWsBlanks (s : List Char) (i : Nat) : Nat :=
    ((s.drop i).takeWhile (fun c => c = ' ' || c = '\t')).length + i

/-- `strip_version_directive`. -/
def stripVersionDirective (s : List Char) : List Char := stripVersionAux s (s.length + 1) 0

/-- The renderer's fixed fragment preamble (`ra_fragment_header`). -/
def raFragmentHeader : List Char :=
  ("#version 330 core\nin vec2 vTexCoord;\nout vec4 FragColor;\n#define COMPAT_VARYING in\n" ++
   "#define COMPAT_ATTRIBUTE in\n#define COMPAT_TEXTURE texture\n#define TEX0 vTexCoord\n" ++
   "#define gl_FragColor FragColor\nuniform sampler2D Source;\nuniform sampler2D Original;\n" ++
   "/* Per-pass state block: mapped into existing uniform names via macros */\n" ++
   "layout(std140, binding = 1) uniform glwall_pass_block \x7b\n  vec4 pass_SourceSize;\n" ++
   "  vec4 pass_OriginalSize;\n  vec4 pass_OutputSize;\n  vec4 pass_FinalViewportSize;\n\x7d;\n" ++
   "#define SourceSize pass_SourceSize\n#define OriginalSize pass_OriginalSize\n" ++
   "#define OutputSize pass_OutputSize\n#define FinalViewportSize pass_FinalViewportSize\n" ++
   "uniform int FrameCount;\nuniform float FrameTime;\nuniform float FrameDirection;\n").data

/-- The fragment source handed to `create_program` by `build_pass_program`:
fixed preamble + version-stripped translation of the shader file text. -/
def fragSourceOf (raw : List Char) : List Char :=
  raFragmentHeader ++ stripVersionDirective (slangProcessToGl330 raw)

/-- `build_pass_program` succeeding: the shader file is readable and the
assembled program compiles and links. -/
def buildProgramOk (env : Env) (shaderPath : List Char) : Bool :=
  match env.readFile shaderPath with
  | none => false
  | some raw => env.compileOk (fragSourceOf raw)

/-- One named texture (`struct glwall_named_texture`): handle 0 and size
0×0 when the file was skipped or failed to decode. -/
structure NamedTex where
  name : List Char
  path : List Char
  tex : Nat
  w : Int
  h : Int
  deriving Repr, DecidableEq

/-- `load_named_textures`: walk the `;`-separated `textures` list; a name
with no path key is skipped, a non-`.png` path or a failed decode leaves
the entry with handle 0 and size 0×0; nothing here aborts construction.
GL texture handles are modelled as the distinct non-zero values
`1000 + slot`. -/
def loadNamedTextures (env : Env) (presetDir : List Char)
    (kvs : List (List Char × List Char)) : List NamedTex :=
  match kvGet kvs "textures".data with
  | none => []
  | some t =>
    if t = [] then []
    else
      let names := (splitOnChar ';' t).map trimChars |>.filter (· ≠ [])
      (names.foldl (fun acc n =>
        match kvGet kvs n with
        | none => acc
        | some pathVal =>
          if acc.length ≥ 64 then acc
          else
            let texPath := pathJoin presetDir (unquoteChars pathVal)
            let base : NamedTex := ⟨n, texPath, 0, 0, 0⟩
            let entry :=
              if !endsWithC texPath ".png".data then base
              else
                match env.decodePng texPath with
                | some (w, h) => { base with tex := 1000 + acc.length, w := w, h := h }
                | none => base
            acc ++ [entry]) [])

/-- One pass specification as built by the loop body of
`pipeline_init_from_preset` (`struct glwall_pass`, configuration part). -/
structure PassSpec where
  shader_path : List Char
  filter_linear : Bool
  scale_type : List Char
  scale : Rat
  scale_x : Rat
  scale_y : Rat
  deriving Repr, DecidableEq

/-- Defaults installed by `pass_init_defaults`. -/
def passDefaults : PassSpec :=
  ⟨[], true, "viewport".data, 1, 0, 0⟩

/-- The preset key `shaderI` for pass index `i`. -/
def shaderKey (i : Nat) : List Char := "shader".data ++ (Nat.repr i).data

/-- The per-pass configuration read from the key/value list for index `i`
(`shaderI` required; the other keys fall back to the defaults; the
`scale_type` string is truncated to 15 characters by the `strncpy`). -/
def buildPassSpec (env : Env) (presetDir : List Char)
    (kvs : List (List Char × List Char)) (i : Nat) : Option PassSpec :=
  let suf := (Nat.repr i).data
  match kvGet kvs (shaderKey i) with
  | none => none
  | some rel =>
    let shaderPath := pathJoin presetDir (unquoteChars rel)
    let st :=
      match kvGet kvs ("scale_type".data ++ suf) with
      | some v => if v ≠ [] then (trimChars (unquoteChars v)).take 15 else passDefaults.scale_type
      | none => passDefaults.scale_type
    let spec : PassSpec :=
      { shader_path := shaderPath
        filter_linear := parseBoolC (kvGet kvs ("filter_linear".data ++ suf)) true
        scale_type := st
        scale := parseFloatC (kvGet kvs ("scale".data ++ suf)) 1
        scale_x := parseFloatC (kvGet kvs ("scale_x".data ++ suf)) 0
        scale_y := parseFloatC (kvGet kvs ("scale_y".data ++ suf)) 0 }
    if buildProgramOk env shaderPath then some spec else none

/-- The pass-building loop: passes are built in index order and the first
failure aborts the whole construction. -/
def buildPasses (env : Env) (presetDir : List Char)
    (kvs : List (List Char × List Char)) : List Nat → Option (List PassSpec)
  | [] => some []
  | i :: is =>
    match buildPassSpec env presetDir kvs i with
    | none => none
    | some p => (buildPasses env presetDir kvs is).map (p :: ·)

/-- A fully built pipeline (`struct glwall_pipeline`, the parts the claims
observe). -/
structure Pipeline where
  pass_count : Int
  passes : List PassSpec
  named : List NamedTex
  deriving Repr, DecidableEq

/-- The pipeline-owning application state (`state->pipeline`,
`state->current_program`). -/
structure GlState where
  pipeline : Option Pipeline
  current_program : Nat
  deriving Repr, DecidableEq

/-- `pipeline_cleanup`. -/
def pipelineCleanup (st : GlState) : GlState :=
  if st.pipeline.isSome then { pipeline := none, current_program := 0 } else st

/-- The validated pass count: `parse_int(kv_get(kvs, "shaders"), 0)` over
the parsed preset text. -/
def shadersCount (text : List Char) : Int :=
  parseIntC (kvGet (parseKvText text) "shaders".data) 0

/-- `pipeline_init_from_preset`: parse the preset, validate the pass count,
load named textures, build every pass; only when everything succeeded is the
old pipeline destroyed and the new one installed.  Every failure path
returns `false` with the caller's state untouched. -/
def pipelineInitFromPreset (env : Env) (presetPath : List Char) (st : GlState) :
    Bool × GlState :=
  match env.readFile presetPath with
  | none => (false, st)
  | some text =>
    if shadersCount text ≤ 0 ∨ shadersCount text > 32 then (false, st)
    else
      match buildPasses env (pathDirname presetPath) (parseKvText text)
          (List.range (shadersCount text).toNat) with
      | none => (false, st)
      | some passes =>
        (true,
          { pipelineCleanup st with
            pipeline := some (Pipeline.mk (shadersCount text) passes
              (loadNamedTextures env (pathDirname presetPath) (parseKvText text))) })

/-! ## Resource allocator (`pipeline_prepare_alloc`) -/

/-- C `(int)` cast of a float value: truncation toward zero, over `Rat`. -/
def truncToInt (q : Rat) : Int := if q < 0 then -(Int.floor (-q)) else Int.floor q

/-- The final clamp `if (out <= 0) out = 1;`. -/
def clampPos (o : Int) : Int := if o ≤ 0 then 1 else o

/-- One axis of the output-size computation: `scale_x` wins when positive,
else `scale` when positive, else the base; the result is clamped to ≥ 1. -/
def scaleAxis (base : Int) (sAxis sUnif : Rat) : Int :=
  clampPos
    (if sAxis > 0 then truncToInt (base * sAxis)
     else if sUnif > 0 then truncToInt (base * sUnif)
     else base)

/-- The per-pass walk of `pipeline_prepare_alloc`: the base is the viewport
unless `scale_type` compares equal to `"source"` case-insensitively, in
which case it is the previous pass's just-computed output (the viewport for
pass 0); returns each pass's computed output dimensions in order. -/
def prepareAllocDims (vw vh : Int) : List PassSpec → Int → Int → List (Int × Int)
  | [], _, _ => []
  | p :: rest, inW, inH =>
    let baseW := if caseEq p.scale_type "source".data then inW else vw
    let baseH := if caseEq p.scale_type "source".data then inH else vh
    let outW := scaleAxis baseW p.scale_x p.scale
    let outH := scaleAxis baseH p.scale_y p.scale
    (outW, outH) :: prepareAllocDims vw vh rest outW outH

/-- Output dimensions computed for every pass of the chain at the given
viewport (the chained input starts at the viewport). -/
def pipelinePassDims (passes : List PassSpec) (vw vh : Int) : List (Int × Int) :=
  prepareAllocDims vw vh passes vw vh

/-- The allocator as the specification describes it, written from the words
of the claim: base dimensions are the external viewport for
`scale_type = "viewport"` and the previous pass's just-computed output for
`scale_type = "source"` (the viewport for pass 0); width is
`base_w * scale_x` when `scale_x > 0`, else `base_w * scale` when
`scale > 0`, else `base_w`, truncated and clamped to a minimum of 1; height
symmetrically. -/
def specAllocDims (vw vh : Int) : List PassSpec → Int → Int → List (Int × Int)
  | [], _, _ => []
  | p :: rest, prevW, prevH =>
    let base : Int × Int :=
      if p.scale_type = "source".data then (prevW, prevH) else (vw, vh)
    let ow :=
      if p.scale_x > 0 then max 1 (truncToInt (base.1 * p.scale_x))
      else if p.scale > 0 then max 1 (truncToInt (base.1 * p.scale))
      else max 1 base.1
    let oh :=
      if p.scale_y > 0 then max 1 (truncToInt (base.2 * p.scale_y))
      else if p.scale > 0 then max 1 (truncToInt (base.2 * p.scale))
      else max 1 base.2
    (ow, oh) :: specAllocDims vw vh rest ow oh

/-! ## Sampler resolution at render time (`bind_sampler_and_size`) -/

/-- What `bind_sampler_and_size` binds for one sampler: the texture handle
and the dimensions fed to the companion `<Name>Size` uniform.  `passTargets`
lists `(tex, out_w, out_h)` of every pass of the pipeline; `named` lists
`(tex, w, h)` of the named-texture store.  The defaults are handle 0 and
size 1×1. -/
def bindSamplerAndSize (passTargets : List (Nat × Int × Int))
    (named : List (Nat × Int × Int))
    (stype : Int) (sidx : Int)
    (source : Nat × Int × Int) (original : Nat × Int × Int)
    (audioEnabled audioReady : Bool) (audioTex : Nat) (audioW audioH : Int)
    (currentPassIndex : Int) : Nat × Int × Int :=
  if stype = 1 then source
  else if stype = 2 then original
  else if stype = 3 then
    if 0 ≤ sidx ∧ sidx < (passTargets.length : Int) ∧ sidx < currentPassIndex then
      passTargets.getD sidx.toNat (0, 1, 1)
    else (0, 1, 1)
  else if stype = 5 then
    ((if audioEnabled && audioReady then audioTex else 0), audioW, audioH)
  else if stype = 4 then
    if 0 ≤ sidx ∧ sidx < (named.length : Int) then
      let t := named.getD sidx.toNat (0, 1, 1)
      (t.1, (if t.2.1 > 0 then t.2.1 else 1), (if t.2.2 > 0 then t.2.2 else 1))
    else (0, 1, 1)
  else (0, 1, 1)

/-! ## Per-frame execution (`pipeline_render_frame`) -/

/-- One pass at render time, reduced to what the executor manipulates: its
owned target texture handle and dimensions, its GPU timing-query object
(non-zero in every built pipeline, from `glGenQueries`), and its fragment
program abstracted as a function from the color sampled through `Source`
to the color it writes (the two-pass claim scenario uses only constant
shaders and shaders of their `Source` input). -/
structure RenderPass where
  tex : Nat
  out_w : Int
  out_h : Int
  time_query : Nat
  shader : Nat → Nat

/-- Result of one frame: the color written to the default framebuffer by
the last pass, the texture store afterwards, and, per pass in order, the
`(tex, w, h)` its `Source` sampler was bound to. -/
structure FrameResult where
  fb0 : Nat
  content : Nat → Nat
  sourceBinds : List (Nat × Int × Int)

/-- The pass loop of `pipeline_render_frame`.  `src` is the "current input"
triple `(src_tex, src_w, src_h)`; a pass samples `Source` from
`content src.1`, writes its output to its target texture (or to the default
framebuffer when it is the last pass), and — exactly as in the C source —
the advance of the current input to this pass's output happens inside the
`profiling_enabled && time_query != 0` conditional. -/
def runPasses (profiling : Bool) :
    List RenderPass → (Nat × Int × Int) → (Nat → Nat) → Nat → FrameResult
  | [], _, content, fb0 => ⟨fb0, content, []⟩
  | p :: rest, src, content, fb0 =>
    let isLast := rest.isEmpty
    let outColor := p.shader (content src.1)
    let content2 := if isLast then content else fun t => if t = p.tex then outColor else content t
    let fb2 := if isLast then outColor else fb0
    let src2 :=
      if profiling && p.time_query ≠ 0 then
        if !isLast then (p.tex, p.out_w, p.out_h) else src
      else src
    let r := runPasses profiling rest src2 content2 fb2
    ⟨r.fb0, r.content, src :: r.sourceBinds⟩

/-- One rendered frame: the current input starts at the external source
image (`original`), as in `pipeline_render_frame`. -/
def renderFrame (profiling : Bool) (passes : List RenderPass)
    (original : Nat × Int × Int) (content : Nat → Nat) : FrameResult :=
  runPasses profiling passes original content 0

/-! ## Supporting lemmas about the scanning primitives -/

theorem findSubAux_none_shift {pat : List Char} :
    ∀ {l : List Char} {i : Nat}, findSubAux pat l i = none →
      ∀ j k, findSubAux pat (l.drop j) k = none := by
  intro l
  induction l with
  | nil =>
    intro i _ j k
    simp [findSubAux, List.drop_nil]
  | cons c rest ih =>
    intro i h j k
    have hsplit : pat.isPrefixOf (c :: rest) = false ∧ findSubAux pat rest (i + 1) = none := by
      by_cases hp : pat.isPrefixOf (c :: rest)
      · simp [findSubAux, hp] at h
      · simp only [findSubAux, hp, if_false] at h
        exact ⟨by simp [hp], h⟩
    cases j with
    | zero =>
      simp only [List.drop_zero, findSubAux, hsplit.1, if_false]
      exact ih hsplit.2 0 (k + 1)
    | succ j2 =>
      simp only [List.drop_succ_cons]
      exact ih hsplit.2 j2 k

theorem strstrIdx_none_of_containsSub_false {s pat : List Char}
    (h : containsSub s pat = false) (start : Nat) : strstrIdx s pat start = none := by
  have h0 : strstrIdx s pat 0 = none := by
    cases hh : strstrIdx s pat 0 with
    | none => rfl
    | some v => simp [containsSub, hh] at h
  have h1 : findSubAux pat s 0 = none := by
    simpa [strstrIdx] using h0
  exact findSubAux_none_shift h1 start start

theorem findSubAux_single_none_of_not_mem {c : Char} :
    ∀ {l : List Char} {i : Nat}, c ∉ l → findSubAux [c] l i = none := by
  intro l
  induction l with
  | nil => intro i _; rfl
  | cons x rest ih =>
    intro i hmem
    have hxc : ([c].isPrefixOf (x :: rest)) = false := by
      have : c ≠ x := fun he => hmem (by simp [he])
      simp [List.isPrefixOf, this]
    simp only [findSubAux, hxc, if_false]
    exact ih (fun hc => hmem (List.mem_cons_of_mem _ hc))

theorem strchrIdx_none_of_not_mem {l : List Char} {c : Char} (h : c ∉ l) :
    strchrIdx l c 0 = none := by
  unfold strchrIdx strstrIdx
  rw [List.drop_zero]
  exact findSubAux_single_none_of_not_mem h

theorem mem_of_mem_stripComment {x : Char} :
    ∀ {l : List Char} {q : Bool}, x ∈ stripComment l q → x ∈ l := by
  intro l
  induction l with
  | nil => intro q h; simp [stripComment] at h
  | cons c rest ih =>
    intro q h
    by_cases hcut : (!(if c = '"' then !q else q)) && (c = '#' || c = ';')
    · simp [stripComment, hcut] at h
    · simp only [stripComment, hcut, if_false] at h
      rcases List.mem_cons.mp h with h1 | h2
      · simp [h1]
      · exact List.mem_cons_of_mem _ (ih h2)

theorem mem_of_mem_trimChars {x : Char} {l : List Char} (h : x ∈ trimChars l) : x ∈ l := by
  unfold trimChars at h
  rw [List.mem_reverse] at h
  have h2 := (List.dropWhile_sublist _).mem h
  rw [List.mem_reverse] at h2
  exact (List.dropWhile_sublist _).mem h2

theorem findSubAux_some_prefixOf {pat : List Char} :
    ∀ {l : List Char} {i q : Nat}, findSubAux pat l i = some q →
      ∃ j, q = i + j ∧ pat.isPrefixOf (l.drop j) = true := by
  intro l
  induction l with
  | nil => intro i q h; simp [findSubAux] at h
  | cons c rest ih =>
    intro i q h
    by_cases hp : pat.isPrefixOf (c :: rest)
    · refine ⟨0, ?_, by simpa using hp⟩
      simp only [findSubAux, hp, if_true, Option.some_inj] at h
      omega
    · simp only [findSubAux, hp, if_false] at h
      rcases ih h with ⟨j, hq, hpre⟩
      exact ⟨j + 1, by omega, by simpa using hpre⟩

theorem strstrIdx_some_matchAt {s pat : List Char} {start q : Nat}
    (h : strstrIdx s pat start = some q) : matchAt s pat q = true := by
  unfold strstrIdx at h
  rcases findSubAux_some_prefixOf h with ⟨j, rfl, hpre⟩
  unfold matchAt
  rwa [List.drop_drop] at hpre

/-- No `layout(...)` construct in `s`: no occurrence of `layout` is
followed, after whitespace, by an opening parenthesis.  Occurrences of
`layout` inside longer identifiers (`layout_mode`) or in prose/comments are
allowed: on those the scanner's `if (*p != '(') continue;` moves on
without producing an edit. -/
def noLayoutParenB (s : List Char) : Bool :=
  (List.range s.length).all fun q =>
    !(matchAt s "layout".data q) || decide (charAt s (skipWsIdx s (q + 6)) ≠ '(')

theorem noLayoutParen_spec {s : List Char} (h : noLayoutParenB s = true) :
    ∀ q, matchAt s "layout".data q = true → charAt s (skipWsIdx s (q + 6)) ≠ '(' := by
  intro q hm
  by_cases hq : q < s.length
  · have hall := List.all_eq_true.mp h q (List.mem_range.mpr hq)
    rw [hm] at hall
    simpa using hall
  · exfalso
    have hdrop : s.drop q = [] := List.drop_eq_nil_of_le (by omega)
    unfold matchAt at hm
    rw [hdrop] at hm
    exact absurd hm (by decide)

theorem scanEdits_nil_of_noLayoutParen {s : List Char} (h : noLayoutParenB s = true) :
    ∀ (fuel p : Nat), scanEdits s fuel p = [] := by
  intro fuel
  induction fuel with
  | zero => intro p; rfl
  | succ f ih =>
    intro p
    cases hs : strstrIdx s "layout".data p with
    | none => simp only [scanEdits, hs]
    | some ls =>
      have hne := noLayoutParen_spec h ls (strstrIdx_some_matchAt hs)
      simp only [scanEdits, hs]
      rw [if_pos hne]
      exact ih _

/-- Shared core of C7 and of the untouched-declarations part of C2: on a
source with no `layout(...)` construct and no fragment stage pragma, the
translator produces no edit at all and returns its input verbatim. -/
theorem slangProcess_id_of_clean (s : List Char)
    (h1 : noLayoutParenB s = true)
    (h2 : containsSub s "#pragma stage fragment".data = false) :
    slangProcessToGl330 s = s := by
  have e2 : strstrIdx s "#pragma stage fragment".data 0 = none :=
    strstrIdx_none_of_containsSub_false h2 0
  have hext : extractFragmentShader s = s := by
    unfold extractFragmentShader
    rw [e2]
  unfold slangProcessToGl330
  rw [hext]
  show applyEdits s (translatorEdits s) = s
  rw [show translatorEdits s = [] from scanEdits_nil_of_noLayoutParen h1 _ _]
  unfold applyEdits sortEdits applyEditsAux
  simp

/-! ## C7: the translator is the identity on already-translated source -/

/-- C7 (confirmed).  An already-translated source string — one with no
`layout(...)` construct, i.e. no occurrence of `layout` followed (after
whitespace) by `(` (occurrences inside longer identifiers such as
`layout_mode`, or in comments, are fine: the scanner `continue`s past them
without an edit), and no `#pragma stage fragment` pragma — is returned
unchanged by `slang_process_to_gl330`: the scan produces an empty edit list
and the rebuild copies the input verbatim, so a second run of the
translator on already-translated output of this shape is the identity. -/
theorem C7_translator_idempotent (s : List Char)
    (h1 : noLayoutParenB s = true)
    (h2 : containsSub s "#pragma stage fragment".data = false) :
    slangProcessToGl330 s = s :=
  slangProcess_id_of_clean s h1 h2

/-- Witness for C7 at a concrete already-translated body that still
contains `layout` inside an identifier and inside a comment. -/
theorem C7_translator_idempotent_witness :
    slangProcessToGl330
        "int layout_mode = 1; /* layout */\nvoid main()\x7bFragColor = vec4(layout_mode);\x7d".data =
      "int layout_mode = 1; /* layout */\nvoid main()\x7bFragColor = vec4(layout_mode);\x7d".data :=
  C7_translator_idempotent _ (by decide) (by decide)

/-! ## C2: `in`/`out` declaration handling -/

/-- General characterization of the `in` branch: whenever the scanner, at
any position of any source, meets `layout(...)` followed by `in ` (and not
`uniform`) with a terminating `;`, it emits exactly one edit — the whole
declaration (through the `;`) when the declared name is `vTexCoord`, only
the `layout(...)` qualifier when it is anything else — and resumes at the
`in` keyword. -/
theorem scanEdits_in_decl (s : List Char) (fuel p0 ls pe se : Nat)
    (hls : strstrIdx s "layout".data p0 = some ls)
    (hparen : charAt s (skipWsIdx s (ls + 6)) = '(')
    (hpe : strchrIdx s ')' (skipWsIdx s (ls + 6)) = some pe)
    (huni : matchAt s "uniform".data (skipWsIdx s (pe + 1)) = false)
    (hin : matchAt s "in".data (skipWsIdx s (pe + 1)) = true)
    (hsp : isSpaceC (charAt s (skipWsIdx s (pe + 1) + 2)) = true)
    (hse : strchrIdx s ';' (skipWsIdx s (pe + 1)) = some se) :
    scanEdits s (fuel + 1) p0 =
      (if declName s (skipWsIdx s (pe + 1)) se = "vTexCoord".data then
        Edit.mk ls (se - ls + 1) [] :: scanEdits s fuel (skipWsIdx s (pe + 1))
      else
        Edit.mk ls (skipWsIdx s (pe + 1) - ls) [] ::
          scanEdits s fuel (skipWsIdx s (pe + 1))) := by
  simp only [scanEdits, hls, hparen, hpe, huni, hin, hsp, hse]
  simp only [ne_eq, not_true_eq_false, if_false, Bool.false_eq_true, Bool.true_and, if_true]
  rfl

/-- General characterization of the `out` branch, mirroring
`scanEdits_in_decl` with the fixed output name `FragColor`. -/
theorem scanEdits_out_decl (s : List Char) (fuel p0 ls pe se : Nat)
    (hls : strstrIdx s "layout".data p0 = some ls)
    (hparen : charAt s (skipWsIdx s (ls + 6)) = '(')
    (hpe : strchrIdx s ')' (skipWsIdx s (ls + 6)) = some pe)
    (huni : matchAt s "uniform".data (skipWsIdx s (pe + 1)) = false)
    (hnin : matchAt s "in".data (skipWsIdx s (pe + 1)) = false)
    (hout : matchAt s "out".data (skipWsIdx s (pe + 1)) = true)
    (hsp : isSpaceC (charAt s (skipWsIdx s (pe + 1) + 3)) = true)
    (hse : strchrIdx s ';' (skipWsIdx s (pe + 1)) = some se) :
    scanEdits s (fuel + 1) p0 =
      (if declName s (skipWsIdx s (pe + 1)) se = "FragColor".data then
        Edit.mk ls (se - ls + 1) [] :: scanEdits s fuel (skipWsIdx s (pe + 1))
      else
        Edit.mk ls (skipWsIdx s (pe + 1) - ls) [] ::
          scanEdits s fuel (skipWsIdx s (pe + 1))) := by
  simp only [scanEdits, hls, hparen, hpe, huni, hnin, hout, hsp, hse]
  simp only [ne_eq, not_true_eq_false, if_false, Bool.false_eq_true, Bool.false_and,
    Bool.true_and, if_true]
  rfl

/-- C2 (counterexample).  The claim says an `in` declaration named
`vTexCoord` is kept with only its `layout(...)` qualifier stripped, and that
any other `in` declaration is deleted.  The code does the opposite: the
whole `vTexCoord` declaration is deleted (the fixed fragment preamble
already declares it), while the `foo` declaration survives with the
qualifier stripped. -/
theorem C2_inout_counterexample :
    slangProcessToGl330 "layout(location = 0) in vec2 vTexCoord;".data = [] ∧
    slangProcessToGl330 "layout(location = 0) in vec2 foo;".data = "in vec2 foo;".data := by
  constructor
  · decide
  · decide

/-- C2 (amended, proved).  The translator only edits `in`/`out` declarations
that are preceded by a `layout(...)` qualifier.  Among those — generally,
for every source string and every position at which the scanner meets such
a declaration — a declaration whose declared name is `vTexCoord` (for `in`)
or `FragColor` (for `out`) is deleted entirely (one edit spanning the whole
declaration through its `;`), while a declaration with any other name has
only the `layout(...)` qualifier stripped (one edit spanning exactly
`layout(...)` and the following whitespace) and is otherwise kept.
`in`/`out` declarations without a `layout(...)` qualifier are left
untouched: on any source with no `layout(...)` construct (and no fragment
stage pragma) the translator is the identity.  The final conjuncts run the
rule end-to-end on representative declarations. -/
theorem C2_inout_amended :
    (∀ (s : List Char) (fuel p0 ls pe se : Nat),
      strstrIdx s "layout".data p0 = some ls →
      charAt s (skipWsIdx s (ls + 6)) = '(' →
      strchrIdx s ')' (skipWsIdx s (ls + 6)) = some pe →
      matchAt s "uniform".data (skipWsIdx s (pe + 1)) = false →
      matchAt s "in".data (skipWsIdx s (pe + 1)) = true →
      isSpaceC (charAt s (skipWsIdx s (pe + 1) + 2)) = true →
      strchrIdx s ';' (skipWsIdx s (pe + 1)) = some se →
      scanEdits s (fuel + 1) p0 =
        (if declName s (skipWsIdx s (pe + 1)) se = "vTexCoord".data then
          Edit.mk ls (se - ls + 1) [] :: scanEdits s fuel (skipWsIdx s (pe + 1))
        else
          Edit.mk ls (skipWsIdx s (pe + 1) - ls) [] ::
            scanEdits s fuel (skipWsIdx s (pe + 1)))) ∧
    (∀ (s : List Char) (fuel p0 ls pe se : Nat),
      strstrIdx s "layout".data p0 = some ls →
      charAt s (skipWsIdx s (ls + 6)) = '(' →
      strchrIdx s ')' (skipWsIdx s (ls + 6)) = some pe →
      matchAt s "uniform".data (skipWsIdx s (pe + 1)) = false →
      matchAt s "in".data (skipWsIdx s (pe + 1)) = false →
      matchAt s "out".data (skipWsIdx s (pe + 1)) = true →
      isSpaceC (charAt s (skipWsIdx s (pe + 1) + 3)) = true →
      strchrIdx s ';' (skipWsIdx s (pe + 1)) = some se →
      scanEdits s (fuel + 1) p0 =
        (if declName s (skipWsIdx s (pe + 1)) se = "FragColor".data then
          Edit.mk ls (se - ls + 1) [] :: scanEdits s fuel (skipWsIdx s (pe + 1))
        else
          Edit.mk ls (skipWsIdx s (pe + 1) - ls) [] ::
            scanEdits s fuel (skipWsIdx s (pe + 1)))) ∧
    (∀ s : List Char, noLayoutParenB s = true →
      containsSub s "#pragma stage fragment".data = false →
      slangProcessToGl330 s = s) ∧
    slangProcessToGl330 "layout(location = 0) in vec2 vTexCoord;".data = [] ∧
    slangProcessToGl330 "layout(location = 0) in vec2 foo;".data = "in vec2 foo;".data ∧
    slangProcessToGl330 "layout(location = 0) out vec4 FragColor;".data = [] ∧
    slangProcessToGl330 "layout(location = 0) out vec4 col;".data = "out vec4 col;".data ∧
    slangProcessToGl330 "in vec2 other;\nout vec4 other2;\n".data =
      "in vec2 other;\nout vec4 other2;\n".data := by
  refine ⟨scanEdits_in_decl, scanEdits_out_decl, slangProcess_id_of_clean,
    by decide, by decide, by decide, by decide, by decide⟩

/-- The `foo` declaration of the C2 witness. -/
def c2FooDecl : List Char := "layout(location = 0) in vec2 foo;".data

/-- Witness for C2: the general `in`-branch rule instantiated at the
concrete `foo` declaration (name ≠ `vTexCoord`, so the emitted edit spans
only the `layout(location = 0)` qualifier and its trailing whitespace). -/
theorem C2_inout_amended_witness :
    scanEdits c2FooDecl (5 + 1) 0 =
      (if declName c2FooDecl (skipWsIdx c2FooDecl (19 + 1)) 32 = "vTexCoord".data then
        Edit.mk 0 (32 - 0 + 1) [] :: scanEdits c2FooDecl 5 (skipWsIdx c2FooDecl (19 + 1))
      else
        Edit.mk 0 (skipWsIdx c2FooDecl (19 + 1) - 0) [] ::
          scanEdits c2FooDecl 5 (skipWsIdx c2FooDecl (19 + 1))) :=
  C2_inout_amended.1 c2FooDecl 5 0 0 19 32 (by decide) (by decide) (by decide) (by decide)
    (by decide) (by decide) (by decide)

/-! ## C6: non-overlap of the produced edit spans -/

/-- Two half-open spans overlap. -/
def editsOverlap (a b : Edit) : Bool :=
  a.start < b.start + b.len && b.start < a.start + a.len

/-- Every pair of edits in the list is non-overlapping. -/
def pairwiseDisjointEdits : List Edit → Bool
  | [] => true
  | e :: rest => rest.all (fun x => !editsOverlap e x) && pairwiseDisjointEdits rest

/-- The C6 failing input: a uniform block whose body textually contains the
instance prefix `q.`. -/
def c6Input : List Char := "layout(s) uniform U\x7bvec4 q.b;\x7dq;".data

/-- C6 (code bug).  On `c6Input` the scan produces the whole-block
replacement `[0, 32)` *and* an instance-prefix deletion `[25, 27)` that lies
strictly inside it — the `<instance>.` search restarts from the beginning of
the source and does not skip the replaced block construct — so the edit
spans are not pairwise non-overlapping, contradicting the claim (and the
allocation arithmetic of `apply_replacements_asc`, which is only correct
for disjoint spans: in C the rebuild writes more bytes than it malloc'd). -/
theorem C6_overlapping_spans :
    translatorEdits c6Input =
      [⟨0, 32, "uniform vec4 q.b;\n".data⟩, ⟨25, 2, []⟩] ∧
    pairwiseDisjointEdits (translatorEdits c6Input) = false := by
  constructor
  · decide
  · decide

/-! ## C3: sampler resolution and the default binding -/

/-- C3 (counterexample).  A self-referencing `Pass0` sampler in pass 0
binds texture handle 0 as claimed, but the companion size is the default
`(1, 1)` (`int w = 1, h = 1;` in `bind_sampler_and_size`), not the claimed
`(0, 0)`. -/
theorem C3_default_size_counterexample :
    bindSamplerAndSize [(55, 10, 10)] [] 3 0 (9, 2, 2) (8, 3, 3) false false 0 0 0 0 =
      (0, 1, 1) ∧
    (bindSamplerAndSize [(55, 10, 10)] [] 3 0 (9, 2, 2) (8, 3, 3) false false 0 0 0 0).2 ≠
      ((0 : Int), (0 : Int)) := by
  constructor
  · decide
  · decide

/-- The environment whose PNG decoding always fails, over a base
environment. -/
def envDecodeFail (env : Env) : Env := { env with decodePng := fun _ => none }

/-- Concrete environment for the C3 named-texture conjunct: the preset
declares one texture, the decode of which fails. -/
def c3Env : Env :=
  { readFile := fun p =>
      if p = "d/p.slangp".data then
        some "shaders=1\nshader0=a.slang\ntextures=logo\nlogo=img.png\n".data
      else some "void main()\x7b\x7d".data
    compileOk := fun _ => true
    decodePng := fun _ => none }

/-- C3 (amended, proved).  At render time a `Pass<k>` sampler with
`0 ≤ k < pass_count` and `k <` the current pass index binds pass `k`'s
output texture and dimensions; any unresolvable sampler — a self, forward,
or out-of-range pass reference, or a named texture whose on-disk load
failed — binds texture handle 0 and companion size `(1, 1)` (not `(0, 0)`)
instead of failing the frame; and a named-texture decode failure never
aborts pipeline construction (the build succeeds and stores the texture
with handle 0 and size 0×0). -/
theorem C3_sampler_resolution_amended :
    (∀ (passTargets named : List (Nat × Int × Int)) (src orig : Nat × Int × Int)
       (sidx cur : Int),
       0 ≤ sidx → sidx < (passTargets.length : Int) → sidx < cur →
       bindSamplerAndSize passTargets named 3 sidx src orig false false 0 0 0 cur =
         passTargets.getD sidx.toNat (0, 1, 1)) ∧
    (∀ (passTargets named : List (Nat × Int × Int)) (src orig : Nat × Int × Int)
       (sidx cur : Int),
       (sidx < 0 ∨ (passTargets.length : Int) ≤ sidx ∨ cur ≤ sidx) →
       bindSamplerAndSize passTargets named 3 sidx src orig false false 0 0 0 cur =
         (0, 1, 1)) ∧
    (∀ (passTargets named : List (Nat × Int × Int)) (src orig : Nat × Int × Int)
       (sidx : Int) (cur : Int),
       0 ≤ sidx → sidx < (named.length : Int) →
       named.getD sidx.toNat (0, 1, 1) = (0, 0, 0) →
       bindSamplerAndSize passTargets named 4 sidx src orig false false 0 0 0 cur =
         (0, 1, 1)) ∧
    ((pipelineInitFromPreset c3Env "d/p.slangp".data ⟨none, 0⟩).1 = true ∧
      (pipelineInitFromPreset c3Env "d/p.slangp".data ⟨none, 0⟩).2.pipeline.map
          Pipeline.named =
        some [⟨"logo".data, "d/img.png".data, 0, 0, 0⟩]) := by
  refine ⟨?_, ?_, ?_, by decide, by decide⟩
  · intro passTargets named src orig sidx cur h0 hlen hcur
    simp only [bindSamplerAndSize]
    rw [if_neg (by decide), if_neg (by decide), if_pos trivial,
      if_pos (show 0 ≤ sidx ∧ sidx < (passTargets.length : Int) ∧ sidx < cur from
        ⟨h0, hlen, hcur⟩)]
  · intro passTargets named src orig sidx cur h
    simp only [bindSamplerAndSize]
    rw [if_neg (by decide), if_neg (by decide), if_pos trivial,
      if_neg (show ¬(0 ≤ sidx ∧ sidx < (passTargets.length : Int) ∧ sidx < cur) by omega)]
  · intro passTargets named src orig sidx cur h0 hlen hfail
    simp only [bindSamplerAndSize]
    rw [if_neg (by decide), if_neg (by decide), if_neg (by decide), if_neg (by decide),
      if_pos trivial,
      if_pos (show 0 ≤ sidx ∧ sidx < (named.length : Int) from ⟨h0, hlen⟩), hfail]
    decide

/-- Witness for C3 at a concrete earlier-pass reference. -/
theorem C3_sampler_resolution_amended_witness :
    bindSamplerAndSize [(55, 10, 10), (66, 20, 20)] [] 3 0 (9, 2, 2) (8, 3, 3)
      false false 0 0 0 1 = (55, 10, 10) := by
  have h := C3_sampler_resolution_amended.1 [(55, 10, 10), (66, 20, 20)] []
    (9, 2, 2) (8, 3, 3) 0 1 (by decide) (by decide) (by decide)
  simpa using h

/-! ## C1: advancing the current input across passes -/

/-- Pass 0 of the C1 scenario: writes the constant color 100 to its target
texture (handle 7, 12×34); its timing query object is non-zero, as
`build_pass_program` guarantees for every built pass. -/
def c1Pass0 : RenderPass := ⟨7, 12, 34, 5, fun _ => 100⟩

/-- Pass 1 (final) of the C1 scenario: samples `Source` and writes its
complement `255 - x` to the default framebuffer. -/
def c1Pass1 : RenderPass := ⟨0, 0, 0, 6, fun c => 255 - c⟩

/-- The external source image of the C1 scenario: handle 3, 8×8, constant
color 7. -/
def c1Content : Nat → Nat := fun t => if t = 3 then 7 else 0

/-- C1 (code bug).  The claim — and step 7 of the specified executor state
machine — says the current-input reference advances to each non-final
pass's output unconditionally, so the 2-pass complement preset must present
`255 - 100 = 155` regardless of profiling.  In the code the advance
(`src_tex = p->tex; ...`) sits inside the
`if (state->profiling_enabled && p->time_query != 0)` block
(slang_process.c:1642-1646), so with profiling disabled pass 1's `Source`
stays bound to the external source image and the frame presents
`255 - 7 = 248`; only with profiling enabled does it present 155. -/
theorem C1_advance_only_under_profiling :
    (renderFrame false [c1Pass0, c1Pass1] (3, 8, 8) c1Content).fb0 = 248 ∧
    (renderFrame false [c1Pass0, c1Pass1] (3, 8, 8) c1Content).sourceBinds =
      [(3, 8, 8), (3, 8, 8)] ∧
    (renderFrame true [c1Pass0, c1Pass1] (3, 8, 8) c1Content).fb0 = 155 ∧
    (renderFrame true [c1Pass0, c1Pass1] (3, 8, 8) c1Content).sourceBinds =
      [(3, 8, 8), (7, 12, 34)] := by
  refine ⟨rfl, rfl, rfl, rfl⟩

/-! ## C5: output dimensions computed by the allocator -/

theorem clampPos_eq_max (o : Int) : clampPos o = max 1 o := by
  unfold clampPos
  split_ifs <;> omega

theorem scaleAxis_eq_spec (b : Int) (sAxis sUnif : Rat) :
    scaleAxis b sAxis sUnif =
      (if sAxis > 0 then max 1 (truncToInt (b * sAxis))
       else if sUnif > 0 then max 1 (truncToInt (b * sUnif))
       else max 1 b) := by
  unfold scaleAxis
  rw [clampPos_eq_max]
  split_ifs <;> rfl

theorem caseEq_source_iff (st : List Char)
    (h : st = "viewport".data ∨ st = "source".data) :
    caseEq st "source".data = true ↔ st = "source".data := by
  rcases h with h | h <;> subst h <;> decide

/-- The two-pass 1920×1080 example of the claim: pass 0 is
`scale_type=viewport, scale=0.5`, pass 1 is
`scale_type=source, scale_x=2.0, scale_y=1.0`. -/
def c5Specs : List PassSpec :=
  [{ passDefaults with scale_type := "viewport".data, scale := (1 : Rat) / 2 },
   { passDefaults with scale_type := "source".data, scale_x := 2, scale_y := 1 }]

theorem prepareAllocDims_eq_spec (vw vh : Int) :
    ∀ (ps : List PassSpec) (pw ph : Int),
      (∀ p ∈ ps, p.scale_type = "viewport".data ∨ p.scale_type = "source".data) →
      prepareAllocDims vw vh ps pw ph = specAllocDims vw vh ps pw ph := by
  intro ps
  induction ps with
  | nil => intro pw ph _; rfl
  | cons p rest ih =>
    intro pw ph hall
    have hp := hall p (List.mem_cons_self p rest)
    have hrest : ∀ q ∈ rest, q.scale_type = "viewport".data ∨ q.scale_type = "source".data :=
      fun q hq => hall q (List.mem_cons_of_mem p hq)
    simp only [prepareAllocDims, specAllocDims, scaleAxis_eq_spec]
    by_cases hsrc : p.scale_type = "source".data
    · rw [if_pos ((caseEq_source_iff p.scale_type hp).mpr hsrc), if_pos hsrc]
      rw [if_pos ((caseEq_source_iff p.scale_type hp).mpr hsrc)]
      exact congrArg _ (ih _ _ hrest)
    · rw [if_neg (fun hc => hsrc ((caseEq_source_iff p.scale_type hp).mp hc)), if_neg hsrc]
      rw [if_neg (fun hc => hsrc ((caseEq_source_iff p.scale_type hp).mp hc))]
      exact congrArg _ (ih _ _ hrest)

/-- C5 (confirmed).  The allocator walk of `pipeline_prepare_alloc` computes
exactly the dimensions the claim describes (for the claim's
`scale_type ∈ {viewport, source}` domain; the comparison in the code is
case-insensitive and treats anything other than `source` as `viewport`),
and on viewport 1920×1080 the claim's two-pass example yields 960×540
followed by 1920×540.  The C float arithmetic is modelled by exact rational
arithmetic; the claim's scale factors (0.5, 2.0, 1.0) are exactly
representable, so the model is faithful on them. -/
theorem C5_alloc_dims :
    (∀ (ps : List PassSpec) (vw vh : Int),
      (∀ p ∈ ps, p.scale_type = "viewport".data ∨ p.scale_type = "source".data) →
      pipelinePassDims ps vw vh = specAllocDims vw vh ps vw vh) ∧
    pipelinePassDims c5Specs 1920 1080 = [(960, 540), (1920, 540)] := by
  constructor
  · intro ps vw vh hall
    exact prepareAllocDims_eq_spec vw vh ps vw vh hall
  · show prepareAllocDims 1920 1080 c5Specs 1920 1080 = _
    norm_num [c5Specs, passDefaults, prepareAllocDims, scaleAxis, clampPos, truncToInt,
      caseEq, toLowerC]

/-- Witness for C5: the general equality applied to the concrete two-pass
example. -/
theorem C5_alloc_dims_witness :
    pipelinePassDims c5Specs 1920 1080 = specAllocDims 1920 1080 c5Specs 1920 1080 :=
  C5_alloc_dims.1 c5Specs 1920 1080 (by decide)

/-! ## C4 and C9: construction-time behavior of `pipeline_init_from_preset` -/

theorem buildPasses_length (env : Env) (dir : List Char)
    (kvs : List (List Char × List Char)) :
    ∀ (L : List Nat) (ps : List PassSpec),
      buildPasses env dir kvs L = some ps → ps.length = L.length := by
  intro L
  induction L with
  | nil =>
    intro ps h
    simp only [buildPasses, Option.some_inj] at h
    simp [← h]
  | cons i is ih =>
    intro ps h
    simp only [buildPasses] at h
    cases hspec : buildPassSpec env dir kvs i with
    | none => rw [hspec] at h; simp at h
    | some p =>
      rw [hspec] at h
      cases hrest : buildPasses env dir kvs is with
      | none => rw [hrest] at h; simp at h
      | some ps2 =>
        rw [hrest] at h
        have h2 : p :: ps2 = ps := by simpa using h
        rw [← h2]
        simp [ih ps2 hrest]

theorem buildPassSpec_none_iff (env : Env) (dir : List Char)
    (kvs : List (List Char × List Char)) (i : Nat)
    (hR : ∀ p, (env.readFile p).isSome) (hC : ∀ s, env.compileOk s = true) :
    buildPassSpec env dir kvs i = none ↔ kvGet kvs (shaderKey i) = none := by
  unfold buildPassSpec
  cases hk : kvGet kvs (shaderKey i) with
  | none => simp
  | some rel =>
    have hok : buildProgramOk env (pathJoin dir (unquoteChars rel)) = true := by
      unfold buildProgramOk
      cases hr : env.readFile (pathJoin dir (unquoteChars rel)) with
      | none => have := hR (pathJoin dir (unquoteChars rel)); rw [hr] at this; simp at this
      | some raw => exact hC _
    simp [hok]

theorem buildPasses_none_iff (env : Env) (dir : List Char)
    (kvs : List (List Char × List Char))
    (hR : ∀ p, (env.readFile p).isSome) (hC : ∀ s, env.compileOk s = true) :
    ∀ L : List Nat,
      buildPasses env dir kvs L = none ↔ ∃ i ∈ L, kvGet kvs (shaderKey i) = none := by
  intro L
  induction L with
  | nil => simp [buildPasses]
  | cons i is ih =>
    simp only [buildPasses]
    cases hspec : buildPassSpec env dir kvs i with
    | none =>
      have hmiss := (buildPassSpec_none_iff env dir kvs i hR hC).mp hspec
      simp only [List.mem_cons]
      constructor
      · intro _; exact ⟨i, Or.inl rfl, hmiss⟩
      · intro _; trivial
    | some p =>
      have hsome : ¬kvGet kvs (shaderKey i) = none := by
        intro hn
        rw [(buildPassSpec_none_iff env dir kvs i hR hC).mpr hn] at hspec
        exact Option.noConfusion hspec
      cases hrest : buildPasses env dir kvs is with
      | none =>
        rcases ih.mp hrest with ⟨j, hj, hjn⟩
        simp only [Option.map_none]
        constructor
        · intro _; exact ⟨j, List.mem_cons_of_mem _ hj, hjn⟩
        · intro _; trivial
      | some ps2 =>
        simp only [Option.map_some]
        constructor
        · intro h; exact Option.noConfusion h
        · rintro ⟨j, hj, hjn⟩
          rcases List.mem_cons.mp hj with rfl | hj2
          · exact absurd hjn hsome
          · rw [ih.mpr ⟨j, hj2, hjn⟩] at hrest
            exact Option.noConfusion hrest

/-- Exhaustive shape of one `pipeline_init_from_preset` call: either some
failure path returned `(false, st)` with the caller's state untouched, or
everything succeeded and a fully-built pipeline (one pass per index of the
validated pass count) replaced the old one. -/
theorem pipelineInit_cases (env : Env) (presetPath : List Char) (st : GlState) :
    pipelineInitFromPreset env presetPath st = (false, st) ∨
    ∃ pl, pipelineInitFromPreset env presetPath st =
        (true, { pipelineCleanup st with pipeline := some pl }) ∧
      pl.passes.length = pl.pass_count.toNat ∧ 0 < pl.pass_count ∧ pl.pass_count ≤ 32 := by
  unfold pipelineInitFromPreset
  split
  · exact Or.inl rfl
  · rename_i text heq
    split
    · exact Or.inl rfl
    · rename_i hc
      push_neg at hc
      split
      · exact Or.inl rfl
      · rename_i passes hb
        refine Or.inr ⟨Pipeline.mk (shadersCount text) passes
          (loadNamedTextures env (pathDirname presetPath) (parseKvText text)), rfl, ?_, ?_, ?_⟩
        · rw [buildPasses_length _ _ _ _ _ hb, List.length_range]
        · show 0 < shadersCount text
          omega
        · show shadersCount text ≤ 32
          omega

/-- C4 (confirmed).  `pipeline_init_from_preset` is atomic: whenever it
returns `false` — unreadable preset, invalid pass count, missing shader
key, shader-file read failure, compile or link failure, all of which are
failure paths of the embedded function — the previously installed pipeline
(and the whole pipeline-owning state) is left exactly as it was; and it
returns `true` only with a fully built pipeline installed, one built pass
per index of the validated pass count. -/
theorem C4_atomic_install (env : Env) (presetPath : List Char) (st : GlState) :
    ((pipelineInitFromPreset env presetPath st).1 = false →
      (pipelineInitFromPreset env presetPath st).2 = st) ∧
    ((pipelineInitFromPreset env presetPath st).1 = true →
      ∃ pl, (pipelineInitFromPreset env presetPath st).2.pipeline = some pl ∧
        pl.passes.length = pl.pass_count.toNat) := by
  rcases pipelineInit_cases env presetPath st with h | ⟨pl, h, hlen, _, _⟩
  · rw [h]
    exact ⟨fun _ => rfl, fun hcontr => by simp at hcontr⟩
  · rw [h]
    exact ⟨fun hcontr => by simp at hcontr, fun _ => ⟨pl, rfl, hlen⟩⟩

/-- Environment for the C4 witness: the preset file itself is unreadable. -/
def c4Env : Env :=
  { readFile := fun _ => none, compileOk := fun _ => true, decodePng := fun _ => none }

/-- A previously installed one-pass pipeline for the C4/C9 witnesses. -/
def c4OldState : GlState :=
  ⟨some ⟨1, [passDefaults], []⟩, 42⟩

/-- Witness for C4: a failing rebuild leaves the installed pipeline and the
rest of the state unchanged. -/
theorem C4_atomic_install_witness :
    (pipelineInitFromPreset c4Env "p.slangp".data c4OldState).2 = c4OldState :=
  (C4_atomic_install c4Env "p.slangp".data c4OldState).1 (by decide)

/-- Reduction of `pipeline_init_from_preset` once the preset file has been
read: the rest of the function over the parsed text. -/
theorem pipelineInit_eq_of_read (env : Env) (presetPath : List Char) (st : GlState)
    (text : List Char) (hread : env.readFile presetPath = some text) :
    pipelineInitFromPreset env presetPath st =
      (if shadersCount text ≤ 0 ∨ shadersCount text > 32 then (false, st)
       else
        match buildPasses env (pathDirname presetPath) (parseKvText text)
            (List.range (shadersCount text).toNat) with
        | none => (false, st)
        | some passes =>
          (true,
            { pipelineCleanup st with
              pipeline := some (Pipeline.mk (shadersCount text) passes
                (loadNamedTextures env (pathDirname presetPath) (parseKvText text))) })) := by
  unfold pipelineInitFromPreset
  rw [hread]

/-- C9 (confirmed).  With the collaborators otherwise cooperating (every
file readable, every assembled program compiling), `pipeline_init_from_preset`
fails exactly when the parsed `shaders` count is non-positive (which
includes a missing or unparsable key, `parse_int` falling back to 0) or
greater than `GLWALL_MAX_PASSES = 32`, or when some per-pass key `shaderI`
with `i ∈ [0, N)` is absent; otherwise it installs a pipeline with exactly
`N` pass specifications. -/
theorem C9_loader_iff (env : Env) (presetPath text : List Char) (st : GlState)
    (hread : env.readFile presetPath = some text)
    (hR : ∀ p, (env.readFile p).isSome) (hC : ∀ s, env.compileOk s = true) :
    ((pipelineInitFromPreset env presetPath st).1 = false ↔
      (shadersCount text ≤ 0 ∨
       32 < shadersCount text ∨
       ∃ i ∈ List.range (shadersCount text).toNat,
         kvGet (parseKvText text) (shaderKey i) = none)) ∧
    ((pipelineInitFromPreset env presetPath st).1 = true →
      ∃ pl, (pipelineInitFromPreset env presetPath st).2.pipeline = some pl ∧
        pl.pass_count = shadersCount text ∧
        pl.passes.length =
          (shadersCount text).toNat) := by
  rw [pipelineInit_eq_of_read env presetPath st text hread]
  by_cases hc : shadersCount text ≤ 0 ∨ shadersCount text > 32
  · rw [if_pos hc]
    constructor
    · constructor
      · intro _
        rcases hc with hc | hc
        · exact Or.inl hc
        · exact Or.inr (Or.inl hc)
      · intro _; rfl
    · intro hcontr; simp at hcontr
  · rw [if_neg hc]
    push_neg at hc
    cases hb : buildPasses env (pathDirname presetPath) (parseKvText text)
        (List.range (shadersCount text).toNat) with
    | none =>
      have hmiss := (buildPasses_none_iff env _ _ hR hC _).mp hb
      constructor
      · exact ⟨fun _ => Or.inr (Or.inr hmiss), fun _ => rfl⟩
      · intro hcontr; simp at hcontr
    | some passes =>
      constructor
      · constructor
        · intro hcontr; simp at hcontr
        · rintro (h1 | h2 | h3)
          · omega
          · omega
          · rw [(buildPasses_none_iff env _ _ hR hC _).mpr h3] at hb
            exact Option.noConfusion hb
      · intro _
        refine ⟨_, rfl, rfl, ?_⟩
        rw [buildPasses_length _ _ _ _ _ hb, List.length_range]

/-- Environment for the C9 witness: a two-pass preset whose files all read
and compile. -/
def c9Env : Env :=
  { readFile := fun p =>
      if p = "dir/p.slangp".data then
        some "shaders=2\nshader0=a.slang\nshader1=b.slang\n".data
      else some "void main()\x7b\x7d".data
    compileOk := fun _ => true
    decodePng := fun _ => none }

/-- Witness for C9 at the concrete two-pass preset. -/
theorem C9_loader_iff_witness :
    ((pipelineInitFromPreset c9Env "dir/p.slangp".data c4OldState).1 = false ↔
      (shadersCount "shaders=2\nshader0=a.slang\nshader1=b.slang\n".data ≤ 0 ∨
       32 < shadersCount "shaders=2\nshader0=a.slang\nshader1=b.slang\n".data ∨
       ∃ i ∈ List.range (shadersCount "shaders=2\nshader0=a.slang\nshader1=b.slang\n".data).toNat,
         kvGet (parseKvText "shaders=2\nshader0=a.slang\nshader1=b.slang\n".data)
           (shaderKey i) = none)) ∧
    ((pipelineInitFromPreset c9Env "dir/p.slangp".data c4OldState).1 = true →
      ∃ pl, (pipelineInitFromPreset c9Env "dir/p.slangp".data c4OldState).2.pipeline = some pl ∧
        pl.pass_count = shadersCount "shaders=2\nshader0=a.slang\nshader1=b.slang\n".data ∧
        pl.passes.length =
          (shadersCount "shaders=2\nshader0=a.slang\nshader1=b.slang\n".data).toNat) :=
  C9_loader_iff c9Env "dir/p.slangp".data
    "shaders=2\nshader0=a.slang\nshader1=b.slang\n".data c4OldState
    (by decide)
    (by
      intro p
      unfold c9Env
      by_cases h : p = "dir/p.slangp".data <;> simp [h])
    (fun _ => rfl)

/-! ## C8: fully-builtin uniform blocks -/

/-- The C8 concrete shader: a single uniform block whose members are
exactly the nine builtin names, an instance-qualified reference
`global.SourceSize` in the body, and a word-boundary negative case
`xglobal.y` that must survive. -/
def c8Shader : List Char :=
  ("layout(std140) uniform UBO \x7b vec4 SourceSize; vec4 OriginalSize; " ++
   "vec4 OutputSize; vec4 FinalViewportSize; int FrameCount; float FrameTime; " ++
   "float FrameDirection; vec4 Source; vec4 Original; \x7d global;\n" ++
   "void main()\x7b FragColor = global.SourceSize + xglobal.y; \x7d").data

set_option maxRecDepth 40000 in
/-- C8 (confirmed).  (1) In general, a uniform block body every one of
whose parsed member names is builtin re-emits no standalone `uniform`
declaration at all.  (2) On the concrete `c8Shader` — a single block
holding exactly the nine builtin members, instance `global` — the
translated output contains no occurrence of `uniform` and no word-boundary
occurrence of the instance prefix `global.` (the very scan the translator
uses to find such occurrences finds none), while the non-boundary
occurrence inside `xglobal.y` survives, showing the deletion is
word-boundary checked. -/
theorem C8_builtin_block :
    (∀ body : List Char,
      (∀ stmt ∈ splitStmts body (body.length + 1) 0,
        isBuiltinC (cleanName (memberName stmt)) = true) →
      emitBlockDecls body = []) ∧
    containsSub (slangProcessToGl330 c8Shader) "uniform".data = false ∧
    collectInstDel (slangProcessToGl330 c8Shader) "global.".data
      ((slangProcessToGl330 c8Shader).length + 1) 0 = [] ∧
    containsSub (slangProcessToGl330 c8Shader) "xglobal.".data = true := by
  refine ⟨?_, by decide, by decide, by decide⟩
  intro body h
  unfold emitBlockDecls
  rw [List.flatten_eq_nil_iff]
  intro l hl
  rcases List.mem_map.mp hl with ⟨stmt, hs, rfl⟩
  unfold emitOneDecl
  rw [h stmt hs]
  simp

/-- Witness for C8: the general emission lemma at a concrete all-builtin
block body. -/
theorem C8_builtin_block_witness :
    emitBlockDecls " vec4 SourceSize; int FrameCount;".data = [] :=
  C8_builtin_block.1 " vec4 SourceSize; int FrameCount;".data (by decide)

/-! ## C10: malformed preset values never abort the build -/

/-- The C10 concrete preset: a comment-free line with no `=`, a `scale0`
value that does not parse as a float, unparsable per-axis overrides, and a
`filter_linear0` value outside the recognized set. -/
def c10Preset : List Char :=
  ("shaders=1\nshader0=s.slang\nnonsense line\nscale0=abc\nscale_x0=zz\n" ++
   "scale_y0=!\nfilter_linear0=maybe\nscale_type0=source\n").data

/-- Environment for the C10 concrete preset. -/
def c10Env : Env :=
  { readFile := fun p =>
      if p = "dir/p.slangp".data then some c10Preset else some "void main()\x7b\x7d".data
    compileOk := fun _ => true
    decodePng := fun _ => none }

/-- The single pass specification the C10 preset produces. -/
def c10Pass : PassSpec :=
  ((pipelineInitFromPreset c10Env "dir/p.slangp".data ⟨none, 0⟩).2.pipeline.getD
    (Pipeline.mk 0 [] [])).passes.getD 0 passDefaults

/-- C10 (confirmed).  A preset line with no `=` is silently skipped
(general, over every line), and value-level garbage never aborts the build:
on `c10Preset` the construction succeeds and the pass falls back to
`scale = 1.0`, `scale_x = 0.0`, `scale_y = 0.0` and `filter_linear = true`,
while the well-formed keys of the same preset (`shader0`, `scale_type0`)
are parsed unaffected. -/
theorem C10_malformed_values :
    (∀ line : List Char, '=' ∉ line → lineToKv line = none) ∧
    (pipelineInitFromPreset c10Env "dir/p.slangp".data ⟨none, 0⟩).1 = true ∧
    c10Pass.scale = 1 ∧ c10Pass.scale_x = 0 ∧ c10Pass.scale_y = 0 ∧
    c10Pass.filter_linear = true ∧ c10Pass.scale_type = "source".data ∧
    c10Pass.shader_path = "dir/s.slang".data := by
  refine ⟨?_, by decide, by decide, by decide, by decide, by decide, by decide, by decide⟩
  intro line hmem
  have hnm : '=' ∉ trimChars (stripComment line false) :=
    fun hc => hmem (mem_of_mem_stripComment (mem_of_mem_trimChars hc))
  unfold lineToKv parseTrimmedLine
  by_cases ht : trimChars (stripComment line false) = []
  · rw [if_pos ht]
  · rw [if_neg ht, strchrIdx_none_of_not_mem hnm]

/-- Witness for C10: a concrete line with no `=` yields no key/value pair. -/
theorem C10_malformed_values_witness :
    lineToKv "no equals sign here".data = none :=
  C10_malformed_values.1 "no equals sign here".data (by decide)

end GlWall
